import Mathlib

/-!
Verification of `scripts/docker/download-docker-image.py`.

The script is embedded shallowly: network I/O is an explicit environment
(`Env`) mapping requests to responses, the local filesystem is an explicit
state (`FS`), and Python exceptions that the script does not catch are
modelled as an `Except.error` outcome of `download_image`, while exceptions
the script catches (returning `False`) are modelled as `Except.ok false`.

String helpers (`pyLower`, `pySplit`, `pyStrip`, ...) reimplement the exact
Python string operations used by the script over `List Char`, so that all
definitions evaluate by kernel reduction.
-/

namespace DockerPull

/-- Char-list prefix test (Python `startswith` over the character list). -/
def listPrefixOf : List Char → List Char → Bool
  | [], _ => true
  | _ :: _, [] => false
  | a :: as, b :: bs => a == b && listPrefixOf as bs

/-- `strPrefixOf p s` is `True` when string `p` is a prefix of `s`. -/
def strPrefixOf (p s : String) : Bool := listPrefixOf p.data s.data

/-- Char-list substring test, used for Python `pat in s`. -/
def listHasSub (pat : List Char) : List Char → Bool
  | [] => pat.isEmpty
  | c :: rest => listPrefixOf pat (c :: rest) || listHasSub pat rest

/-- Python `pat in s` (substring containment). -/
def strContainsSub (s pat : String) : Bool := listHasSub pat.data s.data

/-- Python `c in s` for a single-character pattern. -/
def strContainsChar (s : String) (c : Char) : Bool := s.data.contains c

/-- Python `s.lower()`. -/
def pyLower (s : String) : String := ⟨s.data.map Char.toLower⟩

/-- Python `s.split(sep)` on the character list: always at least one group. -/
def pySplitList (sep : Char) : List Char → List (List Char)
  | [] => [[]]
  | c :: rest =>
    let r := pySplitList sep rest
    if c == sep then [] :: r
    else
      match r with
      | g :: gs => (c :: g) :: gs
      | [] => [[c]]

/-- Python `s.split(sep)` for a one-character separator. -/
def pySplit (sep : Char) (s : String) : List String :=
  (pySplitList sep s.data).map (fun g => ⟨g⟩)

/-- Join string pieces with `":"`; inverse of splitting on a colon. -/
def joinColon : List String → String
  | [] => ""
  | [x] => x
  | x :: xs => x ++ ":" ++ joinColon xs

/-- Python `str.isspace` characters stripped by `str.strip()`. -/
def pyIsSpace (c : Char) : Bool :=
  c == ' ' || c == '\t' || c == '\n' || c == '\r' || c == '\x0b' || c == '\x0c'

/-- Python `s.strip()`. -/
def pyStrip (s : String) : String :=
  ⟨((s.data.dropWhile pyIsSpace).reverse.dropWhile pyIsSpace).reverse⟩

/-- Python `s.replace("/", "_")` (single-character pattern). -/
def sanitizeName (s : String) : String :=
  ⟨s.data.map (fun c => if c == '/' then '_' else c)⟩

/-- Python exceptions that `download_image` can raise without catching them. -/
inductive PyExn where
  /-- `ValueError` from unpacking `target_platform.split("/")`. -/
  | valueError
  /-- `KeyError` from a `d["digest"]` access outside any `try`. -/
  | keyError
  /-- a `requests` transport exception outside any `try`. -/
  | requestError
  /-- `raise_for_status()` on the platform-manifest response (not in a `try`). -/
  | httpError
  /-- `.json()` parse failure on the platform-manifest response (not in a `try`). -/
  | jsonError
  /-- failure while creating the tar archive. -/
  | tarError
deriving DecidableEq

/-- JSON `platform` object of a manifest-index entry (`m.get("platform", {})`). -/
structure PlatformInfo where
  os : Option String
  architecture : Option String
deriving DecidableEq

/-- One entry of a multi-arch manifest index. -/
structure IndexEntry where
  platform : Option PlatformInfo
  digest : Option String
deriving DecidableEq

/-- The `config` object of an image manifest. -/
structure ConfigRef where
  digest : Option String
deriving DecidableEq

/-- One entry of an image manifest's `layers` array. -/
structure LayerRef where
  digest : Option String
  size : Option Nat
deriving DecidableEq

/-- A parsed manifest JSON document; `Option` fields model absent keys
(the script reads them with `.get(..., default)` or `[...]`). -/
structure Manifest where
  mediaType : Option String
  manifests : Option (List IndexEntry)
  config : Option ConfigRef
  layers : Option (List LayerRef)
deriving DecidableEq

/-- One element of the `manifest.json` list the script writes
(`{"Config": ..., "RepoTags": [...], "Layers": [...]}`). -/
structure PodmanEntry where
  Config : String
  RepoTags : List String
  Layers : List String
deriving DecidableEq

/-- Contents of a file the script writes: raw blob bytes, the layout
manifest, or the final tar archive (a snapshot of the layout files). -/
inductive FileContent where
  | bytes (s : String)
  | layoutManifest (entries : List PodmanEntry)
  | archive (entries : List (String × FileContent))

/-- Local filesystem state: existing directories and files with contents. -/
structure FS where
  dirs : List String
  files : List (String × FileContent)

/-- Create a directory (`os.makedirs(..., exist_ok=True)`). -/
def FS.makedirs (fs : FS) (d : String) : FS := FS.mk (d :: fs.dirs) fs.files

/-- Write a file, shadowing any previous content at the same path. -/
def FS.writeFile (fs : FS) (p : String) (c : FileContent) : FS :=
  FS.mk fs.dirs ((p, c) :: fs.files)

/-- The files currently stored below directory `d`. -/
def FS.filesUnder (fs : FS) (d : String) : List (String × FileContent) :=
  fs.files.filter (fun e => strPrefixOf (d ++ "/") e.fst)

/-- `shutil.rmtree(d)`: remove the directory and everything below it. -/
def FS.rmtree (fs : FS) (d : String) : FS :=
  FS.mk (fs.dirs.filter (fun x => !(x == d)))
    (fs.files.filter (fun e => !(strPrefixOf (d ++ "/") e.fst)))

/-- Look up the current content of a file path. -/
def lookupFile : List (String × FileContent) → String → Option FileContent
  | [], _ => none
  | (k, v) :: rest, p => if k == p then some v else lookupFile rest p

/-- The empty filesystem. -/
def fs0 : FS := FS.mk [] []

/-- The registry as seen by the script: token endpoint, manifest endpoint
(keyed by repository and tag-or-digest) and blob endpoint (keyed by
repository and digest).  `Except.error ()` is a transport-level exception
raised by `requests`; `Except.ok (status, body)` is an HTTP response.
`tarOk` tells whether creating the tar archive succeeds. -/
structure Env where
  tokenFetch : String → Except Unit (Nat × Option String)
  manifestFetch : String → String → Except Unit (Nat × Option Manifest)
  blobFetch : String → String → Except Unit (Nat × String)
  tarOk : Bool

/-- `get_platform()` from the script, with `platform.machine()` passed in. -/
def get_platform (machine : String) : String × String :=
  let m := pyLower machine
  if m == "amd64" || m == "x86_64" then ("linux", "amd64")
  else if m == "aarch64" || m == "xarm64" then ("linux", "arm64")
  else ("linux", "amd64")

/-- The known-official single-word image names (`official_images`). -/
def officialImages : List String := ["postgres", "redis", "mysql", "nginx", "ubuntu"]

/-- Lines 21-24 of the script: prefix a known single-word official name
with `library/`, leave everything else unchanged. -/
def normalizeName (image_name : String) : String :=
  if !(strContainsChar image_name '/') then
    if officialImages.contains image_name then "library/" ++ image_name
    else image_name
  else image_name

/-- Lines 29-32: `os_name, arch = target_platform.split("/")` when a truthy
explicit platform is given (a two-element unpack; any other arity raises
`ValueError`), else `get_platform()`. -/
def platformStep (target_platform : Option String) (machine : String) :
    Except PyExn (String × String) :=
  match target_platform with
  | some s =>
    if s == "" then Except.ok (get_platform machine)
    else
      match pySplit '/' s with
      | [a, b] => Except.ok (a, b)
      | _ => Except.error PyExn.valueError
  | none => Except.ok (get_platform machine)

/-- Lines 36-43: token acquisition inside a `try`: transport error,
non-success status, or missing `token` field all yield `return False`
(modelled as `false`). -/
def tokenStep (env : Env) (repo : String) : Bool :=
  match env.tokenFetch repo with
  | Except.error _ => false
  | Except.ok (status, tok) =>
    if 400 ≤ status then false
    else
      match tok with
      | none => false
      | some _ => true

/-- Lines 57-66: manifest fetch for the tag inside a `try`; `none` means the
script returns `False`. -/
def manifestStep (env : Env) (repo tag : String) : Option Manifest :=
  match env.manifestFetch repo tag with
  | Except.error _ => none
  | Except.ok (status, man) => if 400 ≤ status then none else man

/-- Line 78 of the script: an index entry matches when both `os` and
`architecture` of its platform object equal the target exactly. -/
def entryMatches (os_name arch : String) (m : IndexEntry) : Bool :=
  let plat := m.platform.getD (PlatformInfo.mk none none)
  plat.os == some os_name && plat.architecture == some arch

/-- Lines 74-80: linear scan for the first matching index entry. -/
def selectTargetManifest (os_name arch : String) : List IndexEntry → Option IndexEntry
  | [] => none
  | m :: rest =>
    if entryMatches os_name arch m then some m
    else selectTargetManifest os_name arch rest

/-- Outcome of a pipeline step that can raise, return `False`, or produce a
value. -/
inductive StepRes (α : Type) where
  | exn (e : PyExn)
  | fail
  | ok (a : α)

/-- Lines 68-92: if the media type indicates an index, select the matching
entry (no match: `return False`) and fetch the platform manifest.  The
second fetch is NOT inside a `try`, so its failures are uncaught. -/
def resolveIndexStep (env : Env) (repo os_name arch : String) (manifest : Manifest) :
    StepRes Manifest :=
  let media := manifest.mediaType.getD ""
  if strContainsSub media "index" || strContainsSub media "manifest.list" then
    match selectTargetManifest os_name arch (manifest.manifests.getD []) with
    | none => StepRes.fail
    | some tm =>
      match tm.digest with
      | none => StepRes.exn PyExn.keyError
      | some d =>
        match env.manifestFetch repo d with
        | Except.error _ => StepRes.exn PyExn.requestError
        | Except.ok (status, man) =>
          if 400 ≤ status then StepRes.exn PyExn.httpError
          else
            match man with
            | none => StepRes.exn PyExn.jsonError
            | some m2 => StepRes.ok m2
  else StepRes.ok manifest

/-- Lines 103-115: fetch and write the config blob when the manifest has a
truthy `config` object.  Not inside a `try`, and the response status is
never checked: any response body is written to `config.json`. -/
def configStep (env : Env) (repo outDir : String) (manifest : Manifest) (fs : FS) :
    Except PyExn FS :=
  match manifest.config with
  | none => Except.ok fs
  | some cfg =>
    match cfg.digest with
    | none => Except.error PyExn.keyError
    | some d =>
      match env.blobFetch repo d with
      | Except.error _ => Except.error PyExn.requestError
      | Except.ok (_, body) =>
        Except.ok (fs.writeFile (outDir ++ "/config.json") (FileContent.bytes body))

/-- Outcome of the layer-download loop. -/
inductive LoopRes where
  | exn (e : PyExn)
  | fail
  | ok (files : List String)

/-- Lines 117-151: download each layer in order.  `layer["digest"]` is read
before the `try` (missing key: uncaught `KeyError`); transport errors and
non-success statuses inside the `try` yield `return False`. -/
def downloadLayers (env : Env) (repo outDir : String) :
    List LayerRef → Nat → List String → FS → LoopRes × FS
  | [], _, acc, fs => (LoopRes.ok acc, fs)
  | layer :: rest, idx, acc, fs =>
    match layer.digest with
    | none => (LoopRes.exn PyExn.keyError, fs)
    | some d =>
      match env.blobFetch repo d with
      | Except.error _ => (LoopRes.fail, fs)
      | Except.ok (status, body) =>
        if 400 ≤ status then (LoopRes.fail, fs)
        else
          let fname := "layer-" ++ toString idx ++ ".tar.gz"
          downloadLayers env repo outDir rest (idx + 1) (acc ++ [fname])
            (fs.writeFile (outDir ++ "/" ++ fname) (FileContent.bytes body))

/-- Line 99-100: the per-invocation scratch directory name. -/
def scratchDirName (repo tag arch : String) : String :=
  "images/" ++ sanitizeName repo ++ "_" ++ tag ++ "_" ++ arch ++ "_temp"

/-- Lines 168-170: the output tar file name. -/
def tarFileName (repo tag arch : String) : String :=
  "images/" ++ sanitizeName repo ++ "_" ++ tag ++ "_" ++ arch ++ ".tar"

/-- `download_image` from the script.  `Except.ok b` is a normal return of
`b`; `Except.error e` is an uncaught Python exception.  The returned `FS`
is the filesystem after the call. -/
def download_image (image_name : String) (tag : String) (target_platform : Option String)
    (machine : String) (env : Env) (fs : FS) : Except PyExn Bool × FS :=
  let repo := normalizeName image_name
  match platformStep target_platform machine with
  | Except.error e => (Except.error e, fs)
  | Except.ok pr =>
    let os_name := pr.fst
    let arch := pr.snd
    match tokenStep env repo with
    | false => (Except.ok false, fs)
    | true =>
      match manifestStep env repo tag with
      | none => (Except.ok false, fs)
      | some manifest0 =>
        match resolveIndexStep env repo os_name arch manifest0 with
        | StepRes.fail => (Except.ok false, fs)
        | StepRes.exn e => (Except.error e, fs)
        | StepRes.ok manifest =>
          let outDir := scratchDirName repo tag arch
          let fsA := (fs.makedirs "images").makedirs outDir
          match configStep env repo outDir manifest fsA with
          | Except.error e => (Except.error e, fsA)
          | Except.ok fsB =>
            match downloadLayers env repo outDir (manifest.layers.getD []) 1 [] fsB with
            | (LoopRes.exn e, fsC) => (Except.error e, fsC)
            | (LoopRes.fail, fsC) => (Except.ok false, fsC)
            | (LoopRes.ok layer_files, fsC) =>
              let fsD := fsC.writeFile (outDir ++ "/manifest.json")
                (FileContent.layoutManifest
                  [PodmanEntry.mk "config.json" [repo ++ ":" ++ tag] layer_files])
              if env.tarOk then
                let fsE := fsD.writeFile (tarFileName repo tag arch)
                  (FileContent.archive (fsD.filesUnder outDir))
                (Except.ok true, fsE.rmtree outDir)
              else (Except.error PyExn.tarError, fsD)

/-- Lines 199-205: strip a batch line, skip blank and `#` lines, split the
last `:` into name and tag (default tag `latest`). -/
def parseBatchLine (line : String) : Option (String × String) :=
  let l := pyStrip line
  if l == "" then none
  else if strPrefixOf "#" l then none
  else if strContainsChar l ':' then
    match (pySplit ':' l).reverse with
    | last :: rest => some (joinColon rest.reverse, last)
    | [] => some (l, "latest")
  else some (l, "latest")

/-- Lines 197-207: the batch loop.  A `False` return is recorded in `failed`
and the loop continues; an uncaught exception propagates and terminates the
whole run (remaining lines are never processed). -/
def runBatch (machine : String) (env : Env) :
    List String → List String → FS → Except PyExn (List String) × FS
  | [], failed, fs => (Except.ok failed, fs)
  | line :: rest, failed, fs =>
    match parseBatchLine line with
    | none => runBatch machine env rest failed fs
    | some (name, tag) =>
      match download_image name tag none machine env fs with
      | (Except.error e, fs1) => (Except.error e, fs1)
      | (Except.ok true, fs1) => runBatch machine env rest failed fs1
      | (Except.ok false, fs1) =>
        runBatch machine env rest (failed ++ [name ++ ":" ++ tag]) fs1

/-! ### String and list helper lemmas -/

theorem strData_append (a b : String) : (a ++ b).data = a.data ++ b.data := rfl

theorem strExt {a b : String} (h : a.data = b.data) : a = b := by
  cases a; cases b; exact congrArg String.mk h

theorem strAppend_assoc (a b c : String) : (a ++ b) ++ c = a ++ (b ++ c) :=
  strExt (by simp [strData_append])

theorem strAppend_left_cancel {a b c : String} (h : a ++ b = a ++ c) : b = c := by
  have hd := congrArg String.data h
  rw [strData_append, strData_append] at hd
  exact strExt (List.append_cancel_left hd)

theorem listPrefixOf_self_append (l t : List Char) : listPrefixOf l (l ++ t) = true := by
  induction l with
  | nil => rfl
  | cons c cs ih => simp [listPrefixOf, ih]

theorem listPrefixOf_append_both (p x y : List Char) :
    listPrefixOf (p ++ x) (p ++ y) = listPrefixOf x y := by
  induction p with
  | nil => rfl
  | cons c cs ih => simp [listPrefixOf, ih]

theorem strPrefixOf_self_append (a b : String) : strPrefixOf a (a ++ b) = true := by
  simp [strPrefixOf, strData_append, listPrefixOf_self_append]

theorem strPrefixOf_append_both (p x y : String) :
    strPrefixOf (p ++ x) (p ++ y) = listPrefixOf x.data y.data := by
  simp [strPrefixOf, strData_append, listPrefixOf_append_both]

/-- The scratch directory prefix never covers the tar file name: after the
common `images/<san>_<tag>_<arch>` part the two diverge at `_temp/` vs `.tar`. -/
theorem scratch_not_prefixOf_tar (repo tag arch : String) :
    strPrefixOf (scratchDirName repo tag arch ++ "/") (tarFileName repo tag arch) = false := by
  have h1 : scratchDirName repo tag arch ++ "/"
      = ("images/" ++ sanitizeName repo ++ "_" ++ tag ++ "_" ++ arch) ++ "_temp/" := by
    rw [scratchDirName, strAppend_assoc]
    exact rfl
  rw [h1, tarFileName, strPrefixOf_append_both]
  rfl

theorem configPath_eq (d : String) :
    d ++ "/config.json" = (d ++ "/") ++ "config.json" :=
  (strAppend_assoc d "/" "config.json").symm

theorem manifestPath_eq (d : String) :
    d ++ "/manifest.json" = (d ++ "/") ++ "manifest.json" :=
  (strAppend_assoc d "/" "manifest.json").symm

theorem prefix_configPath (d : String) :
    strPrefixOf (d ++ "/") (d ++ "/config.json") = true := by
  rw [configPath_eq]; exact strPrefixOf_self_append _ _

theorem prefix_manifestPath (d : String) :
    strPrefixOf (d ++ "/") (d ++ "/manifest.json") = true := by
  rw [manifestPath_eq]; exact strPrefixOf_self_append _ _

theorem layerName_ne_configJson (x y : String) : ("layer-" ++ x) ++ y ≠ "config.json" := by
  intro h
  have hd := congrArg String.data h
  rw [strData_append, strData_append] at hd
  have h2 : (("layer-".data ++ x.data) ++ y.data).head? = some 'l' := rfl
  rw [hd] at h2
  exact absurd h2 (by decide)

theorem layerPath_ne_configPath (d s : String) :
    (d ++ "/") ++ (("layer-" ++ s) ++ ".tar.gz") ≠ d ++ "/config.json" := by
  intro h
  rw [configPath_eq] at h
  exact layerName_ne_configJson s ".tar.gz" (strAppend_left_cancel h)

theorem manifestPath_ne_configPath (d : String) :
    d ++ "/manifest.json" ≠ d ++ "/config.json" := by
  intro h
  rw [manifestPath_eq, configPath_eq] at h
  exact absurd (strAppend_left_cancel h) (by decide)

/-! ### Lookup lemmas -/

theorem lookupFile_cons_self (k : String) (v : FileContent)
    (rest : List (String × FileContent)) : lookupFile ((k, v) :: rest) k = some v := by
  simp [lookupFile]

theorem lookupFile_eq_none (l : List (String × FileContent)) (p : String)
    (h : ∀ pc ∈ l, pc.fst ≠ p) : lookupFile l p = none := by
  induction l with
  | nil => rfl
  | cons kv rest ih =>
    obtain ⟨k, v⟩ := kv
    have hk : k ≠ p := h (k, v) (by simp)
    simp only [lookupFile, if_neg, hk]
    rw [if_neg (by simpa using hk)]
    exact ih fun pc hpc => h pc (by simp [hpc])

/-! ### Layer-loop lemmas -/

/-- On success the loop returns the accumulator extended with the positional
layer filenames, in manifest order. -/
theorem downloadLayers_ok_files (env : Env) (repo outDir : String) :
    ∀ (layers : List LayerRef) (idx : Nat) (acc files : List String) (fs fs1 : FS),
      downloadLayers env repo outDir layers idx acc fs = (LoopRes.ok files, fs1) →
      files = acc ++ (List.range layers.length).map
        (fun i => "layer-" ++ toString (idx + i) ++ ".tar.gz") := by
  intro layers
  induction layers with
  | nil =>
    intro idx acc files fs fs1 h
    simp only [downloadLayers] at h
    simp only [Prod.mk.injEq, LoopRes.ok.injEq] at h
    simp [h.1]
  | cons layer rest ih =>
    intro idx acc files fs fs1 h
    simp only [downloadLayers] at h
    split at h
    · simp at h
    · split at h
      · simp at h
      · split at h
        · simp at h
        · have hrec := ih (idx + 1) (acc ++ ["layer-" ++ toString idx ++ ".tar.gz"])
            files _ fs1 h
          rw [hrec]
          rw [List.append_assoc]
          congr 1
          rw [List.length_cons, List.range_succ_eq_map, List.map_cons, List.map_map]
          simp only [Nat.add_zero, List.singleton_append, List.cons.injEq]
          refine ⟨trivial, List.map_congr_left ?_⟩
          intro i _
          simp only [Function.comp]
          have : idx + 1 + i = idx + (i + 1) := by omega
          rw [this]

/-- The loop never touches the directory set. -/
theorem downloadLayers_dirs (env : Env) (repo outDir : String) :
    ∀ (layers : List LayerRef) (idx : Nat) (acc : List String) (fs : FS),
      ((downloadLayers env repo outDir layers idx acc fs).snd).dirs = fs.dirs := by
  intro layers
  induction layers with
  | nil => intro idx acc fs; rfl
  | cons layer rest ih =>
    intro idx acc fs
    simp only [downloadLayers]
    split
    · rfl
    · split
      · rfl
      · split
        · rfl
        · exact ih _ _ _

/-- Every file present after the loop was present before it or is one of the
positionally-named layer files inside the scratch directory. -/
theorem downloadLayers_files_mem (env : Env) (repo outDir : String) :
    ∀ (layers : List LayerRef) (idx : Nat) (acc files : List String) (fs fs1 : FS),
      downloadLayers env repo outDir layers idx acc fs = (LoopRes.ok files, fs1) →
      ∀ pc ∈ fs1.files, pc ∈ fs.files ∨
        ∃ s, pc.fst = (outDir ++ "/") ++ (("layer-" ++ s) ++ ".tar.gz") := by
  intro layers
  induction layers with
  | nil =>
    intro idx acc files fs fs1 h pc hpc
    simp only [downloadLayers, Prod.mk.injEq] at h
    rw [← h.2] at hpc
    exact Or.inl hpc
  | cons layer rest ih =>
    intro idx acc files fs fs1 h pc hpc
    simp only [downloadLayers] at h
    split at h
    · simp at h
    · split at h
      · simp at h
      · split at h
        · simp at h
        · rcases ih _ _ _ _ _ h pc hpc with hin | hlayer
          · simp only [FS.writeFile, List.mem_cons] at hin
            rcases hin with hhd | htl
            · exact Or.inr ⟨toString idx, by rw [hhd]⟩
            · exact Or.inl htl
          · exact Or.inr hlayer

/-- When every layer's digest is present and its blob fetch succeeds with a
success status, the loop succeeds. -/
theorem downloadLayers_succeeds (env : Env) (repo outDir : String) :
    ∀ (layers : List LayerRef) (idx : Nat) (acc : List String) (fs : FS),
      (∀ l ∈ layers, ∃ d st body, l.digest = some d ∧
        env.blobFetch repo d = Except.ok (st, body) ∧ st < 400) →
      ∃ files fs1,
        downloadLayers env repo outDir layers idx acc fs = (LoopRes.ok files, fs1) := by
  intro layers
  induction layers with
  | nil => intro idx acc fs _; exact ⟨acc, fs, rfl⟩
  | cons layer rest ih =>
    intro idx acc fs hall
    obtain ⟨d, st, body, hd, hf, hlt⟩ := hall layer (by simp)
    simp only [downloadLayers, hd, hf]
    rw [if_neg (by omega)]
    exact ih (idx + 1) _ _ fun l hl => hall l (by simp [hl])

/-! ### Concrete registries used by counterexamples and witnesses -/

/-- A plain image manifest with a config blob and two layers. -/
def mImgHappy : Manifest := Manifest.mk
  (some "application/vnd.docker.distribution.manifest.v2+json") none
  (some (ConfigRef.mk (some "sha256:cfg")))
  (some [LayerRef.mk (some "sha256:l1") (some 5), LayerRef.mk (some "sha256:l2") (some 7)])

/-- A registry where every request succeeds. -/
def envHappy : Env := Env.mk
  (fun _ => Except.ok (200, some "tok"))
  (fun _ _ => Except.ok (200, some mImgHappy))
  (fun _ _ => Except.ok (200, "BLOB"))
  true

/-- A registry whose token endpoint raises a transport error. -/
def envTokenFail : Env := Env.mk
  (fun _ => Except.error ())
  (fun _ _ => Except.error ())
  (fun _ _ => Except.error ())
  true

/-- An image manifest with a config blob and one layer. -/
def mImgOneLayer : Manifest := Manifest.mk
  (some "application/vnd.docker.distribution.manifest.v2+json") none
  (some (ConfigRef.mk (some "sha256:cfg")))
  (some [LayerRef.mk (some "sha256:l1") (some 5)])

/-- A registry whose config blob request answers HTTP 404 with an error body,
while everything else succeeds. -/
def envConfig404 : Env := Env.mk
  (fun _ => Except.ok (200, some "tok"))
  (fun _ _ => Except.ok (200, some mImgOneLayer))
  (fun _ d => if d == "sha256:cfg" then Except.ok (404, "NOT FOUND")
    else Except.ok (200, "LAYER"))
  true

/-- A registry where everything succeeds except creating the tar archive. -/
def envTarFail : Env := Env.mk
  (fun _ => Except.ok (200, some "tok"))
  (fun _ _ => Except.ok (200, some mImgOneLayer))
  (fun _ _ => Except.ok (200, "BLOB"))
  false

/-- A multi-arch index whose single entry matches `linux/amd64`. -/
def mIdxAmd : Manifest := Manifest.mk
  (some "application/vnd.docker.distribution.manifest.list.v2+json")
  (some [IndexEntry.mk (some (PlatformInfo.mk (some "linux") (some "amd64")))
    (some "sha256:plat")])
  none none

/-- A registry where repository `a` serves the index `mIdxAmd` for tag `t`
but answers HTTP 500 for the platform-specific manifest digest, while every
other repository succeeds outright. -/
def envIndex500 : Env := Env.mk
  (fun _ => Except.ok (200, some "tok"))
  (fun repo ref =>
    if repo == "a" then
      (if ref == "t" then Except.ok (200, some mIdxAmd) else Except.ok (500, none))
    else Except.ok (200, some mImgHappy))
  (fun _ _ => Except.ok (200, "BLOB"))
  true

def pInfoAmd : PlatformInfo := PlatformInfo.mk (some "linux") (some "amd64")

def pInfoArm : PlatformInfo := PlatformInfo.mk (some "linux") (some "arm64")

def entryAmd : IndexEntry := IndexEntry.mk (some pInfoAmd) (some "sha256:amd")

def entryArm : IndexEntry := IndexEntry.mk (some pInfoArm) (some "sha256:arm")

/-- The two-entry index of the spec's `selectManifest` example. -/
def idxEntries : List IndexEntry := [entryAmd, entryArm]

/-! ### Claim C4: manifest selection -/

theorem select_some_split (osn arch : String) :
    ∀ (l : List IndexEntry) (e : IndexEntry),
      selectTargetManifest osn arch l = some e →
      ∃ l1 l2, l = l1 ++ e :: l2 ∧ entryMatches osn arch e = true ∧
        ∀ x ∈ l1, entryMatches osn arch x = false := by
  intro l
  induction l with
  | nil => intro e h; simp [selectTargetManifest] at h
  | cons m rest ih =>
    intro e h
    simp only [selectTargetManifest] at h
    by_cases hm : entryMatches osn arch m = true
    · rw [if_pos hm] at h
      obtain rfl : m = e := by simpa using h
      exact ⟨[], rest, by simp, hm, by simp⟩
    · rw [if_neg hm] at h
      obtain ⟨l1, l2, hsp, hmt, hall⟩ := ih e h
      refine ⟨m :: l1, l2, by simp [hsp], hmt, ?_⟩
      intro x hx
      rcases List.mem_cons.mp hx with rfl | hx2
      · exact Bool.eq_false_iff.mpr hm
      · exact hall x hx2

theorem select_none_iff (osn arch : String) :
    ∀ l : List IndexEntry,
      selectTargetManifest osn arch l = none ↔
        ∀ e ∈ l, entryMatches osn arch e = false := by
  intro l
  induction l with
  | nil => simp [selectTargetManifest]
  | cons m rest ih =>
    simp only [selectTargetManifest]
    by_cases hm : entryMatches osn arch m = true
    · rw [if_pos hm]
      simp [hm]
    · rw [if_neg hm]
      simp [ih, Bool.eq_false_iff.mpr hm]

/-- Claim C4: manifest selection is a linear scan in index order returning
the first entry whose platform `os` and `architecture` both equal the target
by exact string equality, and a no-match outcome makes `download_image`
return the failure value for that image. -/
theorem selectManifest_linear_scan (osn arch : String) (l : List IndexEntry) :
    (∀ e, selectTargetManifest osn arch l = some e →
      ∃ l1 l2, l = l1 ++ e :: l2 ∧ entryMatches osn arch e = true ∧
        ∀ x ∈ l1, entryMatches osn arch x = false) ∧
    (selectTargetManifest osn arch l = none ↔
      ∀ e ∈ l, entryMatches osn arch e = false) ∧
    (∀ (image_name tag machine : String) (env : Env) (fs : FS) (m0 : Manifest),
      tokenStep env (normalizeName image_name) = true →
      manifestStep env (normalizeName image_name) tag = some m0 →
      (strContainsSub (m0.mediaType.getD "") "index" = true ∨
        strContainsSub (m0.mediaType.getD "") "manifest.list" = true) →
      selectTargetManifest (get_platform machine).fst (get_platform machine).snd
        (m0.manifests.getD []) = none →
      download_image image_name tag none machine env fs = (Except.ok false, fs)) := by
  refine ⟨select_some_split osn arch l, select_none_iff osn arch l, ?_⟩
  intro image_name tag machine env fs m0 htok hman hmedia hsel
  have hres : resolveIndexStep env (normalizeName image_name)
      (get_platform machine).fst (get_platform machine).snd m0 = StepRes.fail := by
    have hcond : (strContainsSub (m0.mediaType.getD "") "index" ||
        strContainsSub (m0.mediaType.getD "") "manifest.list") = true := by
      rcases hmedia with h | h <;> simp [h]
    simp [resolveIndexStep, hcond, hsel]
  unfold download_image
  simp only [platformStep, htok, hman, hres]

theorem selectManifest_linear_scan_witness :
    selectTargetManifest "linux" "riscv64" idxEntries = none ∧
    selectTargetManifest "linux" "arm64" idxEntries = some entryArm := by
  constructor
  · exact (selectManifest_linear_scan "linux" "riscv64" idxEntries).2.1.mpr (by decide)
  · rfl

/-! ### Claim C5: platform resolution -/

/-- Claim C5 counterexample: the machine string `AARCH64` is none of the four
strings listed by the claim, yet it does not resolve to `(linux, amd64)` —
the script lowercases the machine string before matching. -/
theorem machine_case_counterexample :
    ("AARCH64" ≠ "x86_64" ∧ "AARCH64" ≠ "amd64" ∧
      "AARCH64" ≠ "aarch64" ∧ "AARCH64" ≠ "xarm64") ∧
    get_platform "AARCH64" ≠ ("linux", "amd64") := by
  constructor
  · refine ⟨by decide, by decide, by decide, by decide⟩
  · decide

/-- Claim C5 (amended): matching is on the lowercased machine string:
lowercase forms `amd64`/`x86_64` map to `(linux, amd64)`, lowercase forms
`aarch64`/`xarm64` map to `(linux, arm64)`, every other lowercase form maps
to `(linux, amd64)`; an explicit `linux/arm64` platform string is split on
`/` and used verbatim, bypassing machine detection. -/
theorem resolvePlatform_mapping (m : String) :
    ((pyLower m = "amd64" ∨ pyLower m = "x86_64") →
      get_platform m = ("linux", "amd64")) ∧
    ((pyLower m = "aarch64" ∨ pyLower m = "xarm64") →
      get_platform m = ("linux", "arm64")) ∧
    ((pyLower m ≠ "amd64" ∧ pyLower m ≠ "x86_64" ∧
      pyLower m ≠ "aarch64" ∧ pyLower m ≠ "xarm64") →
      get_platform m = ("linux", "amd64")) ∧
    platformStep (some "linux/arm64") m = Except.ok ("linux", "arm64") := by
  refine ⟨?_, ?_, ?_, rfl⟩
  · intro h
    rcases h with h | h <;> (simp only [get_platform, h]; decide)
  · intro h
    rcases h with h | h <;> (simp only [get_platform, h]; decide)
  · intro h
    obtain ⟨h1, h2, h3, h4⟩ := h
    simp only [get_platform, beq_eq_false_iff_ne.mpr h1, beq_eq_false_iff_ne.mpr h2,
      beq_eq_false_iff_ne.mpr h3, beq_eq_false_iff_ne.mpr h4]
    decide

theorem resolvePlatform_mapping_witness :
    get_platform "RISCV64" = ("linux", "amd64") ∧
    platformStep (some "linux/arm64") "RISCV64" = Except.ok ("linux", "arm64") :=
  ⟨(resolvePlatform_mapping "RISCV64").2.2.1 (by decide),
   (resolvePlatform_mapping "RISCV64").2.2.2⟩

/-! ### Claim C6: name normalization -/

/-- Claim C6: a single-word name in the known-official set is prefixed with
`library/`; a name containing `/` or not in the set is returned unchanged. -/
theorem normalize_spec (name : String) :
    (strContainsChar name '/' = false → officialImages.contains name = true →
      normalizeName name = "library/" ++ name) ∧
    (strContainsChar name '/' = true ∨ officialImages.contains name = false →
      normalizeName name = name) := by
  constructor
  · intro h1 h2
    have hm : name ∈ officialImages := by simpa using h2
    simp [normalizeName, h1, hm]
  · intro h
    rcases h with h | h
    · simp [normalizeName, h]
    · by_cases hc : strContainsChar name '/' = true
      · simp [normalizeName, hc]
      · have hc2 : strContainsChar name '/' = false := by
          simpa using hc
        have hm : name ∉ officialImages := by simpa using h
        simp [normalizeName, hc2, hm]

theorem normalize_spec_witness :
    normalizeName "redis" = "library/redis" ∧ normalizeName "a/b" = "a/b" :=
  ⟨(normalize_spec "redis").1 (by decide) (by decide),
   (normalize_spec "a/b").2 (Or.inl (by decide))⟩

/-! ### Claim C10: malformed explicit platform strings -/

/-- Claim C10 counterexample: the empty string contains no `/` separator at
all, yet supplying it as the explicit platform raises nothing — the script
treats the empty (falsy) string as absent and returns a normal failure value
from the token step instead. -/
theorem empty_platform_counterexample :
    "".data.count '/' ≠ 1 ∧
    (download_image "img" "latest" (some "") "x86_64" envTokenFail fs0).fst =
      Except.ok false :=
  ⟨by decide, rfl⟩

/-- Claim C10 (amended): for every NON-EMPTY explicit platform string whose
split on `/` does not yield exactly two parts, `download_image` raises an
uncaught `ValueError` at the platform-splitting step, touching nothing. -/
theorem malformed_platform_raises (s : String) (hne : s ≠ "")
    (hlen : (pySplit '/' s).length ≠ 2)
    (name tag machine : String) (env : Env) (fs : FS) :
    download_image name tag (some s) machine env fs =
      (Except.error PyExn.valueError, fs) := by
  have hstep : platformStep (some s) machine = Except.error PyExn.valueError := by
    simp only [platformStep, beq_eq_false_iff_ne.mpr hne, Bool.false_eq_true, if_false]
    rcases hl : pySplit '/' s with _ | ⟨a, _ | ⟨b, _ | ⟨c, t⟩⟩⟩
    · rfl
    · rfl
    · exact absurd (show (pySplit '/' s).length = 2 by rw [hl]; rfl) hlen
    · rfl
  unfold download_image
  rw [hstep]

theorem malformed_platform_raises_witness :
    download_image "img" "latest" (some "linux/arm64/v8") "x86_64" envTokenFail fs0 =
      (Except.error PyExn.valueError, fs0) :=
  malformed_platform_raises "linux/arm64/v8" (by decide) (by decide)
    "img" "latest" "x86_64" envTokenFail fs0

/-! ### Claim C2: blob fetch status handling -/

/-- Claim C2 counterexample: the config blob request answers HTTP 404 with
body `NOT FOUND`; the script never checks the config response status, the
assembly succeeds, and the archive contains `config.json` holding the
non-success response body. -/
theorem config_status_unchecked_counterexample :
    (download_image "img" "t" none "x86_64" envConfig404 fs0).fst = Except.ok true ∧
    lookupFile (download_image "img" "t" none "x86_64" envConfig404 fs0).snd.files
        "images/img_t_amd64.tar" =
      some (FileContent.archive [
        ("images/img_t_amd64_temp/manifest.json",
          FileContent.layoutManifest
            [PodmanEntry.mk "config.json" ["img:t"] ["layer-1.tar.gz"]]),
        ("images/img_t_amd64_temp/layer-1.tar.gz", FileContent.bytes "LAYER"),
        ("images/img_t_amd64_temp/config.json", FileContent.bytes "NOT FOUND")]) :=
  ⟨rfl, rfl⟩

/-- Claim C2 (amended): every LAYER blob written to the layout comes from a
fetch that succeeded with a success status — a transport error or
non-success status on a layer blob aborts the assembly; the CONFIG blob
fetch, however, never checks the response status (see the counterexample). -/
theorem layer_blob_accepted_only_on_success (env : Env) (repo outDir : String) :
    ∀ (layers : List LayerRef) (idx : Nat) (acc files : List String) (fs fs1 : FS),
      downloadLayers env repo outDir layers idx acc fs = (LoopRes.ok files, fs1) →
      ∀ l ∈ layers, ∃ d st body, l.digest = some d ∧
        env.blobFetch repo d = Except.ok (st, body) ∧ st < 400 := by
  intro layers
  induction layers with
  | nil => intro idx acc files fs fs1 h l hl; simp at hl
  | cons layer rest ih =>
    intro idx acc files fs fs1 h l hl
    simp only [downloadLayers] at h
    split at h
    · simp at h
    · split at h
      · simp at h
      · split at h
        · simp at h
        · rename_i v hd x st body hf hst
          rcases List.mem_cons.mp hl with rfl | hl2
          · exact ⟨v, st, body, hd, hf, by omega⟩
          · exact ih _ _ _ _ _ h l hl2

theorem layer_blob_accepted_only_on_success_witness :
    ∃ d st body, (LayerRef.mk (some "sha256:l1") (some 5)).digest = some d ∧
      envHappy.blobFetch "img" d = Except.ok (st, body) ∧ st < 400 :=
  layer_blob_accepted_only_on_success envHappy "img" "od"
    [LayerRef.mk (some "sha256:l1") (some 5)] 1 [] ["layer-1.tar.gz"] fs0
    (FS.mk [] [("od/layer-1.tar.gz", FileContent.bytes "BLOB")]) rfl
    (LayerRef.mk (some "sha256:l1") (some 5)) (by simp)

/-! ### Claim C1: error propagation and batch isolation -/

/-- Claim C1 counterexample: in a batch of two entries, the first image's
platform-specific manifest fetch answers HTTP 500; that `raise_for_status()`
is outside any `try`, so the uncaught exception terminates the whole run and
the second entry — which on its own succeeds — is never processed and never
recorded. -/
theorem batch_error_kills_run_counterexample :
    (runBatch "x86_64" envIndex500 ["a:t", "b:t"] [] fs0).fst =
      Except.error PyExn.httpError ∧
    (download_image "b" "t" none "x86_64" envIndex500 fs0).fst = Except.ok true :=
  ⟨rfl, rfl⟩

/-- Claim C1 (amended): errors that `download_image` catches surface as the
failure return value `False`, and in batch mode an entry returning `False`
is recorded against its `name:tag` key and processing continues with the
next entry (shown here together with the representative caught error: a
token-endpoint transport failure).  Errors on the platform-specific manifest
fetch, config-blob transport, missing digest keys, and archiving instead
raise uncaught exceptions that terminate the whole run. -/
theorem batch_records_failure_and_continues
    (machine : String) (env : Env) (line : String) (rest : List String)
    (failed : List String) (name tag : String) (fs fs1 : FS)
    (hparse : parseBatchLine line = some (name, tag))
    (hfail : download_image name tag none machine env fs = (Except.ok false, fs1)) :
    runBatch machine env (line :: rest) failed fs =
      runBatch machine env rest (failed ++ [name ++ ":" ++ tag]) fs1 ∧
    ∀ (name2 tag2 : String) (fs2 : FS),
      env.tokenFetch (normalizeName name2) = Except.error () →
      download_image name2 tag2 none machine env fs2 = (Except.ok false, fs2) := by
  constructor
  · simp only [runBatch, hparse, hfail]
  · intro n2 t2 fs2 htok
    have hts : tokenStep env (normalizeName n2) = false := by
      simp [tokenStep, htok]
    unfold download_image
    simp only [platformStep, hts]

theorem batch_records_failure_and_continues_witness :
    runBatch "x86_64" envTokenFail ["a:t"] [] fs0 =
      runBatch "x86_64" envTokenFail [] ["a:t"] fs0 :=
  (batch_records_failure_and_continues "x86_64" envTokenFail "a:t" [] [] "a" "t"
    fs0 fs0 rfl rfl).1

/-! ### Claim C3: scratch-directory lifetime -/

theorem resolveIndexStep_no_tarError (env : Env) (repo osn arch : String) (m : Manifest) :
    resolveIndexStep env repo osn arch m ≠ StepRes.exn PyExn.tarError := by
  intro h
  unfold resolveIndexStep at h
  repeat' split at h
  all_goals try simp at h
  all_goals
    by_cases hc : strContainsSub (m.mediaType.getD "") "index" = true ∨
      strContainsSub (m.mediaType.getD "") "manifest.list" = true
  all_goals simp [hc] at h

theorem configStep_no_tarError (env : Env) (repo outDir : String) (m : Manifest) (fs : FS) :
    configStep env repo outDir m fs ≠ Except.error PyExn.tarError := by
  intro h
  unfold configStep at h
  repeat' split at h
  all_goals simp at h

theorem downloadLayers_exn_keyError (env : Env) (repo outDir : String) :
    ∀ (layers : List LayerRef) (idx : Nat) (acc : List String) (fs : FS) (e : PyExn) (fsx : FS),
      downloadLayers env repo outDir layers idx acc fs = (LoopRes.exn e, fsx) →
      e = PyExn.keyError := by
  intro layers
  induction layers with
  | nil => intro idx acc fs e fsx h; simp [downloadLayers] at h
  | cons layer rest ih =>
    intro idx acc fs e fsx h
    simp only [downloadLayers] at h
    split at h
    · simp only [Prod.mk.injEq, LoopRes.exn.injEq] at h
      exact h.1.symm
    · split at h
      · simp at h
      · split at h
        · simp at h
        · exact ih _ _ _ _ _ h

theorem configStep_dirs (env : Env) (repo outDir : String) (m : Manifest) (fs fs1 : FS)
    (h : configStep env repo outDir m fs = Except.ok fs1) : fs1.dirs = fs.dirs := by
  unfold configStep at h
  split at h
  · injection h with h2
    subst h2
    rfl
  · split at h
    · simp at h
    · split at h
      · simp at h
      · injection h with h2
        subst h2
        rfl

/-- Claim C3 counterexample: a concrete run in which archiving fails — the
uncaught exception propagates and the scratch layout directory is left on
disk, contradicting "deleted regardless of whether archiving succeeds". -/
theorem scratch_outlives_on_tar_failure_counterexample :
    (download_image "img" "t" none "x86_64" envTarFail fs0).fst =
      Except.error PyExn.tarError ∧
    "images/img_t_amd64_temp" ∈
      (download_image "img" "t" none "x86_64" envTarFail fs0).snd.dirs :=
  ⟨rfl, by decide⟩

/-- Claim C3 (amended): the scratch layout directory is deleted only on the
success path; whenever archiving fails (the only source of `tarError`), the
scratch directory is still present afterwards. -/
theorem scratch_survives_archive_failure
    (image_name tag machine : String) (env : Env) (fs fs1 : FS)
    (h : download_image image_name tag none machine env fs =
      (Except.error PyExn.tarError, fs1)) :
    scratchDirName (normalizeName image_name) tag (get_platform machine).snd ∈
      fs1.dirs := by
  unfold download_image at h
  simp only [platformStep] at h
  split at h
  · simp at h
  · split at h
    · simp at h
    · split at h
      · simp at h
      · rename_i e heq
        rw [Prod.mk.injEq] at h
        obtain ⟨h1, -⟩ := h
        injection h1 with h2
        rw [h2] at heq
        exact absurd heq (resolveIndexStep_no_tarError _ _ _ _ _)
      · rename_i manifest heqr
        split at h
        · rename_i e heqc
          rw [Prod.mk.injEq] at h
          obtain ⟨h1, -⟩ := h
          injection h1 with h2
          rw [h2] at heqc
          exact absurd heqc (configStep_no_tarError _ _ _ _ _)
        · rename_i fsB heqc
          split at h
          · rename_i e fsC heqd
            rw [Prod.mk.injEq] at h
            obtain ⟨h1, -⟩ := h
            injection h1 with h2
            have hke := downloadLayers_exn_keyError _ _ _ _ _ _ _ _ _ heqd
            rw [h2] at hke
            exact absurd hke (by decide)
          · simp at h
          · rename_i lf fsC heqd
            split at h
            · simp at h
            · rw [Prod.mk.injEq] at h
              obtain ⟨-, h2⟩ := h
              rw [← h2]
              have h3 := downloadLayers_dirs env (normalizeName image_name)
                (scratchDirName (normalizeName image_name) tag (get_platform machine).snd)
                (manifest.layers.getD []) 1 [] fsB
              rw [heqd] at h3
              simp only [FS.writeFile] at h3 ⊢
              rw [h3, configStep_dirs _ _ _ _ _ _ heqc]
              simp [FS.makedirs]

theorem scratch_survives_archive_failure_witness :
    scratchDirName (normalizeName "img") "t" (get_platform "x86_64").snd ∈
      (download_image "img" "t" none "x86_64" envTarFail fs0).snd.dirs :=
  scratch_survives_archive_failure "img" "t" "x86_64" envTarFail fs0
    (download_image "img" "t" none "x86_64" envTarFail fs0).snd rfl

/-! ### Claim C8: cleanup after success -/

/-- Claim C8: after a successful assembly the scratch layout directory no
longer exists, while the output archive file does. -/
theorem cleanup_after_success
    (image_name tag machine : String) (env : Env) (fs fs1 : FS)
    (hrun : download_image image_name tag none machine env fs = (Except.ok true, fs1)) :
    scratchDirName (normalizeName image_name) tag (get_platform machine).snd ∉
      fs1.dirs ∧
    (lookupFile fs1.files
      (tarFileName (normalizeName image_name) tag (get_platform machine).snd)).isSome =
      true := by
  unfold download_image at hrun
  simp only [platformStep] at hrun
  split at hrun
  · simp at hrun
  · split at hrun
    · simp at hrun
    · split at hrun
      · simp at hrun
      · simp at hrun
      · rename_i manifest heqr
        split at hrun
        · simp at hrun
        · rename_i fsB heqc
          split at hrun
          · simp at hrun
          · simp at hrun
          · rename_i lf fsC heqd
            split at hrun
            · rw [Prod.mk.injEq] at hrun
              obtain ⟨-, h2⟩ := hrun
              rw [← h2]
              constructor
              · intro hmem
                simp only [FS.rmtree, FS.writeFile] at hmem
                rcases List.mem_filter.mp hmem with ⟨-, hpred⟩
                simp at hpred
              · simp only [FS.rmtree, FS.writeFile]
                rw [List.filter_cons_of_pos (by simp [scratch_not_prefixOf_tar])]
                rw [lookupFile_cons_self]
                rfl
            · simp at hrun

theorem cleanup_after_success_witness :
    scratchDirName (normalizeName "img") "t" (get_platform "x86_64").snd ∉
      (download_image "img" "t" none "x86_64" envHappy fs0).snd.dirs ∧
    (lookupFile (download_image "img" "t" none "x86_64" envHappy fs0).snd.files
      (tarFileName (normalizeName "img") "t" (get_platform "x86_64").snd)).isSome =
      true :=
  cleanup_after_success "img" "t" "x86_64" envHappy fs0
    (download_image "img" "t" none "x86_64" envHappy fs0).snd rfl

/-! ### Claim C7: layout manifest content -/

/-- After archiving and removing the scratch directory, the tar file is
still present with its recorded content. -/
theorem lookupFile_rmtree_tar (fsD : FS) (repo tag arch : String) (c : FileContent) :
    lookupFile
      (((fsD.writeFile (tarFileName repo tag arch) c).rmtree
        (scratchDirName repo tag arch)).files)
      (tarFileName repo tag arch) = some c := by
  simp only [FS.rmtree, FS.writeFile]
  rw [List.filter_cons_of_pos (by simp [scratch_not_prefixOf_tar])]
  exact lookupFile_cons_self _ _ _

/-- The layout snapshot taken right after writing `manifest.json` contains
that file with its written content. -/
theorem lookupFile_filesUnder_manifest (fsC : FS) (d : String) (c : FileContent) :
    lookupFile ((fsC.writeFile (d ++ "/manifest.json") c).filesUnder d)
      (d ++ "/manifest.json") = some c := by
  simp only [FS.filesUnder, FS.writeFile]
  rw [List.filter_cons_of_pos (by simp [prefix_manifestPath])]
  exact lookupFile_cons_self _ _ _

/-- Claim C7: a successful assembly of a manifest with a config blob and N
layers produces an archive whose layout manifest lists exactly the N
positional layer filenames in manifest order, with `RepoTags` equal to the
one-element list `"<normalized repository>:<tag>"`. -/
theorem layout_manifest_layers_ordered
    (image_name tag machine : String) (env : Env) (fs fs1 : FS)
    (m0 m : Manifest) (cfg : ConfigRef) (ls : List LayerRef)
    (hman : manifestStep env (normalizeName image_name) tag = some m0)
    (hres : resolveIndexStep env (normalizeName image_name)
      (get_platform machine).fst (get_platform machine).snd m0 = StepRes.ok m)
    (hcfg : m.config = some cfg)
    (hls : m.layers = some ls)
    (hrun : download_image image_name tag none machine env fs = (Except.ok true, fs1)) :
    ∃ entries,
      lookupFile fs1.files
        (tarFileName (normalizeName image_name) tag (get_platform machine).snd) =
        some (FileContent.archive entries) ∧
      lookupFile entries
        (scratchDirName (normalizeName image_name) tag (get_platform machine).snd ++
          "/manifest.json") =
        some (FileContent.layoutManifest
          [PodmanEntry.mk "config.json" [normalizeName image_name ++ ":" ++ tag]
            ((List.range ls.length).map
              (fun i => "layer-" ++ toString (1 + i) ++ ".tar.gz"))]) := by
  unfold download_image at hrun
  simp only [platformStep] at hrun
  split at hrun
  · simp at hrun
  · split at hrun
    · simp at hrun
    · rename_i m2 heqm
      rw [hman] at heqm
      injection heqm with he
      subst he
      split at hrun
      · simp at hrun
      · simp at hrun
      · rename_i mf heqr
        rw [hres] at heqr
        injection heqr with he2
        subst he2
        split at hrun
        · simp at hrun
        · rename_i fsB heqc
          rw [hls, Option.getD_some] at hrun
          split at hrun
          · simp at hrun
          · simp at hrun
          · rename_i lf fsC heqd
            split at hrun
            · rw [Prod.mk.injEq] at hrun
              obtain ⟨-, h2⟩ := hrun
              have hfiles := downloadLayers_ok_files env (normalizeName image_name)
                (scratchDirName (normalizeName image_name) tag (get_platform machine).snd)
                ls 1 [] lf fsB fsC heqd
              simp only [List.nil_append] at hfiles
              subst hfiles
              rw [← h2]
              exact ⟨_, lookupFile_rmtree_tar _ _ _ _ _,
                lookupFile_filesUnder_manifest _ _ _⟩
            · simp at hrun

theorem layout_manifest_layers_ordered_witness :
    ∃ entries,
      lookupFile (download_image "img" "t" none "x86_64" envHappy fs0).snd.files
        (tarFileName (normalizeName "img") "t" (get_platform "x86_64").snd) =
        some (FileContent.archive entries) ∧
      lookupFile entries
        (scratchDirName (normalizeName "img") "t" (get_platform "x86_64").snd ++
          "/manifest.json") =
        some (FileContent.layoutManifest
          [PodmanEntry.mk "config.json" [normalizeName "img" ++ ":" ++ "t"]
            ((List.range 2).map (fun i => "layer-" ++ toString (1 + i) ++ ".tar.gz"))]) :=
  layout_manifest_layers_ordered "img" "t" "x86_64" envHappy fs0
    (download_image "img" "t" none "x86_64" envHappy fs0).snd
    mImgHappy mImgHappy (ConfigRef.mk (some "sha256:cfg"))
    [LayerRef.mk (some "sha256:l1") (some 5), LayerRef.mk (some "sha256:l2") (some 7)]
    rfl rfl rfl rfl rfl

/-! ### Claim C9: absent config blob still referenced by the layout manifest -/

/-- The layout snapshot taken after writing `manifest.json` has no
`config.json` entry when neither the loop output nor the pre-existing files
provide one. -/
theorem lookupFile_filesUnder_no_config (fsC : FS) (d : String) (c : FileContent)
    (hnone : ∀ pc ∈ fsC.files, pc.fst ≠ d ++ "/config.json") :
    lookupFile ((fsC.writeFile (d ++ "/manifest.json") c).filesUnder d)
      (d ++ "/config.json") = none := by
  apply lookupFile_eq_none
  intro pc hpc
  simp only [FS.filesUnder, FS.writeFile] at hpc
  have hmem := List.mem_filter.mp hpc
  rcases List.mem_cons.mp hmem.1 with rfl | hin
  · exact manifestPath_ne_configPath d
  · exact hnone pc hin

/-- On the all-success path `download_image` returns `True` together with
the filesystem obtained by writing the layout manifest, archiving the
layout, and removing the scratch directory. -/
theorem download_image_success_eq
    (image_name tag machine : String) (env : Env) (fs : FS) (m0 m : Manifest)
    (ls : List LayerRef) (files : List String) (fsB fsC : FS)
    (htok : tokenStep env (normalizeName image_name) = true)
    (hman : manifestStep env (normalizeName image_name) tag = some m0)
    (hres : resolveIndexStep env (normalizeName image_name)
      (get_platform machine).fst (get_platform machine).snd m0 = StepRes.ok m)
    (hls : m.layers = some ls)
    (hcs : configStep env (normalizeName image_name)
      (scratchDirName (normalizeName image_name) tag (get_platform machine).snd) m
      ((fs.makedirs "images").makedirs
        (scratchDirName (normalizeName image_name) tag (get_platform machine).snd)) =
      Except.ok fsB)
    (hdl : downloadLayers env (normalizeName image_name)
      (scratchDirName (normalizeName image_name) tag (get_platform machine).snd)
      ls 1 [] fsB = (LoopRes.ok files, fsC))
    (htar : env.tarOk = true) :
    download_image image_name tag none machine env fs =
      (Except.ok true,
        ((fsC.writeFile
            (scratchDirName (normalizeName image_name) tag (get_platform machine).snd ++
              "/manifest.json")
            (FileContent.layoutManifest
              [PodmanEntry.mk "config.json" [normalizeName image_name ++ ":" ++ tag]
                files])).writeFile
          (tarFileName (normalizeName image_name) tag (get_platform machine).snd)
          (FileContent.archive
            ((fsC.writeFile
                (scratchDirName (normalizeName image_name) tag (get_platform machine).snd ++
                  "/manifest.json")
                (FileContent.layoutManifest
                  [PodmanEntry.mk "config.json" [normalizeName image_name ++ ":" ++ tag]
                    files])).filesUnder
              (scratchDirName (normalizeName image_name) tag (get_platform machine).snd)))).rmtree
        (scratchDirName (normalizeName image_name) tag (get_platform machine).snd)) := by
  unfold download_image
  simp only [platformStep, htok, hman, hres, hls, Option.getD_some, hcs, hdl, htar, if_true]

/-- Claim C9: when the concrete manifest declares no config blob and all
other steps succeed, the assembly still succeeds; the emitted layout
manifest names `config.json` in its Config field although no `config.json`
was written into the layout, so the archive references a file it does not
contain. -/
theorem missing_config_still_referenced
    (image_name tag machine : String) (env : Env) (fs : FS) (m0 : Manifest)
    (ls : List LayerRef)
    (htok : tokenStep env (normalizeName image_name) = true)
    (hman : manifestStep env (normalizeName image_name) tag = some m0)
    (hidx : strContainsSub (m0.mediaType.getD "") "index" = false)
    (hlist : strContainsSub (m0.mediaType.getD "") "manifest.list" = false)
    (hcfg : m0.config = none)
    (hls : m0.layers = some ls)
    (hblobs : ∀ l ∈ ls, ∃ d st body, l.digest = some d ∧
      env.blobFetch (normalizeName image_name) d = Except.ok (st, body) ∧ st < 400)
    (htar : env.tarOk = true)
    (hfresh : ∀ pc ∈ fs.files,
      strPrefixOf (scratchDirName (normalizeName image_name) tag
        (get_platform machine).snd ++ "/") pc.fst = false) :
    ∃ fs1 entries,
      download_image image_name tag none machine env fs = (Except.ok true, fs1) ∧
      lookupFile fs1.files
        (tarFileName (normalizeName image_name) tag (get_platform machine).snd) =
        some (FileContent.archive entries) ∧
      (∃ layerNames, lookupFile entries
        (scratchDirName (normalizeName image_name) tag (get_platform machine).snd ++
          "/manifest.json") =
        some (FileContent.layoutManifest
          [PodmanEntry.mk "config.json" [normalizeName image_name ++ ":" ++ tag]
            layerNames])) ∧
      lookupFile entries
        (scratchDirName (normalizeName image_name) tag (get_platform machine).snd ++
          "/config.json") = none := by
  have hresolve : resolveIndexStep env (normalizeName image_name)
      (get_platform machine).fst (get_platform machine).snd m0 = StepRes.ok m0 := by
    simp [resolveIndexStep, hidx, hlist]
  have hcs : configStep env (normalizeName image_name)
      (scratchDirName (normalizeName image_name) tag (get_platform machine).snd) m0
      ((fs.makedirs "images").makedirs
        (scratchDirName (normalizeName image_name) tag (get_platform machine).snd)) =
      Except.ok ((fs.makedirs "images").makedirs
        (scratchDirName (normalizeName image_name) tag (get_platform machine).snd)) := by
    simp [configStep, hcfg]
  obtain ⟨files, fsC, hdl⟩ := downloadLayers_succeeds env (normalizeName image_name)
    (scratchDirName (normalizeName image_name) tag (get_platform machine).snd)
    ls 1 []
    ((fs.makedirs "images").makedirs
      (scratchDirName (normalizeName image_name) tag (get_platform machine).snd))
    hblobs
  have hrun := download_image_success_eq image_name tag machine env fs m0 m0 ls files
    ((fs.makedirs "images").makedirs
      (scratchDirName (normalizeName image_name) tag (get_platform machine).snd))
    fsC htok hman hresolve hls hcs hdl htar
  have hnoc : ∀ pc ∈ fsC.files,
      pc.fst ≠ scratchDirName (normalizeName image_name) tag
        (get_platform machine).snd ++ "/config.json" := by
    intro pc hpc
    rcases downloadLayers_files_mem env (normalizeName image_name)
      (scratchDirName (normalizeName image_name) tag (get_platform machine).snd)
      ls 1 [] files
      ((fs.makedirs "images").makedirs
        (scratchDirName (normalizeName image_name) tag (get_platform machine).snd))
      fsC hdl pc hpc with hin | ⟨s, hs⟩
    · have hpre := hfresh pc hin
      intro heq
      rw [heq, prefix_configPath] at hpre
      cases hpre
    · rw [hs]
      exact layerPath_ne_configPath _ _
  exact ⟨_, _, hrun, lookupFile_rmtree_tar _ _ _ _ _,
    ⟨files, lookupFile_filesUnder_manifest _ _ _⟩,
    lookupFile_filesUnder_no_config _ _ _ hnoc⟩

/-- An image manifest without a `config` object. -/
def mImgNoConfig : Manifest := Manifest.mk
  (some "application/vnd.oci.image.manifest.v1+json") none none
  (some [LayerRef.mk (some "sha256:l1") (some 5)])

/-- A registry serving `mImgNoConfig` with all requests succeeding. -/
def envNoConfig : Env := Env.mk
  (fun _ => Except.ok (200, some "tok"))
  (fun _ _ => Except.ok (200, some mImgNoConfig))
  (fun _ _ => Except.ok (200, "B"))
  true

theorem missing_config_still_referenced_witness :
    ∃ fs1 entries,
      download_image "img" "t" none "x86_64" envNoConfig fs0 = (Except.ok true, fs1) ∧
      lookupFile fs1.files
        (tarFileName (normalizeName "img") "t" (get_platform "x86_64").snd) =
        some (FileContent.archive entries) ∧
      (∃ layerNames, lookupFile entries
        (scratchDirName (normalizeName "img") "t" (get_platform "x86_64").snd ++
          "/manifest.json") =
        some (FileContent.layoutManifest
          [PodmanEntry.mk "config.json" [normalizeName "img" ++ ":" ++ "t"]
            layerNames])) ∧
      lookupFile entries
        (scratchDirName (normalizeName "img") "t" (get_platform "x86_64").snd ++
          "/config.json") = none :=
  missing_config_still_referenced "img" "t" "x86_64" envNoConfig fs0 mImgNoConfig
    [LayerRef.mk (some "sha256:l1") (some 5)]
    rfl rfl rfl rfl rfl rfl
    (by
      intro l hl
      simp only [List.mem_singleton] at hl
      subst hl
      exact ⟨"sha256:l1", 200, "B", rfl, rfl, by omega⟩)
    rfl
    (by intro pc hpc; exact absurd hpc (List.not_mem_nil pc))

end DockerPull
